import Mathlib

/-!
Verification of the telemetry ingestion and alarm-evaluation subsystem of an
energy-monitoring backend (Django + paho-mqtt).

The embedding models, from `backend/devices/mqtt_service.py` and
`backend/devices/services.py`:
  * payload normalization (the per-key numeric filter in `_handle_message`),
  * topic→device resolution (`_handle_message`'s ordered matching),
  * the connection pool bookkeeping (`subscribe_device`),
  * threshold evaluation (`check_thresholds_and_create_alarms`),
  * the connection probe (`test_mqtt_connection`) and its serializer bounds.

Database rows (Device, Threshold, Alarm, ParameterMapping) are modelled as
lists in enumeration order; Django queryset `filter(...).first()` becomes
`List.filter`/`head?`.  Python floats are modelled as rationals (ℚ); the
decimal literals the system handles are exact in both.  Exceptions are
modelled with `Except String`.
-/

namespace EnergyMonitor

/-- A decoded JSON value as produced by Python's `json.loads`: JSON `true`
and `false` become Python `bool` (a distinct constructor here, because
`isinstance(True, int)` holds in Python and that matters for normalization). -/
inductive JsonVal where
  | num (q : ℚ)
  | str (s : String)
  | bool (b : Bool)
  | null
  | arr (elems : List JsonVal)
  | obj (members : List (String × JsonVal))
deriving Repr

/-! ### Python string helpers

`str.replace(old, new, 1)` with a one-character `old` and empty `new` is
`removeFirst`; `str.isdigit()` is `pyIsdigit` (nonempty, all digits; the
payloads in scope are ASCII). -/

/-- Python `s.replace(c, '', 1)` on a character list: drop the first
occurrence of `c`, if any. -/
def removeFirst (c : Char) : List Char → List Char
  | [] => []
  | x :: xs => if x = c then xs else x :: removeFirst c xs

/-- Python `s.isdigit()`: true iff the string is nonempty and all digits. -/
def pyIsdigit (cs : List Char) : Bool :=
  !cs.isEmpty && cs.all Char.isDigit

/-- The numeric-string gate used in `_handle_message`:
`v.replace('.', '', 1).replace('-', '', 1).isdigit()`. -/
def numericStringCheck (s : String) : Bool :=
  pyIsdigit (removeFirst '-' (removeFirst '.' s.data))

/-- Digit list to natural number (most significant first). -/
def digitsVal (cs : List Char) : ℕ :=
  cs.foldl (fun n c => 10 * n + (c.toNat - '0'.toNat)) 0

/-- Helper for `pyFloatMag?`: given the leading digit run `intPart` and the
remainder `rest` of the input, accept `rest` empty (integer form) or a `'.'`
followed by only digits, requiring at least one digit overall. -/
def pyFloatAux (intPart rest : List Char) : Option ℚ :=
  match rest with
  | [] => if intPart.isEmpty then none else some (digitsVal intPart)
  | '.' :: frac =>
      if frac.all Char.isDigit && !(intPart.isEmpty && frac.isEmpty) then
        some ((digitsVal intPart : ℚ) + (digitsVal frac : ℚ) / ((10 : ℚ) ^ frac.length))
      else none
  | _ => none

/-- The unsigned part of Python `float(s)`: an integer part, an optional
`'.'` followed by a fractional part, with at least one digit overall and
nothing else. -/
def pyFloatMag? (body : List Char) : Option ℚ :=
  pyFloatAux (body.takeWhile Char.isDigit) (body.dropWhile Char.isDigit)

/-- Python `float(s)` on the string shapes reachable here: an optional sign
then `pyFloatMag?`.  (CPython also accepts surrounding whitespace,
exponents, `inf`/`nan`; none of those survive `numericStringCheck`, so they
are omitted.)  Returns `none` when `float` would raise `ValueError`. -/
def pyFloat? (s : String) : Option ℚ :=
  match s.data with
  | '-' :: t => (pyFloatMag? t).map (fun m => -m)
  | '+' :: t => pyFloatMag? t
  | cs => pyFloatMag? cs

/-- Occurrences of a character in a list. -/
def countChar (c : Char) : List Char → ℕ
  | [] => 0
  | x :: xs => (if x = c then 1 else 0) + countChar c xs

/-- The spec's numeric-string pattern, written from the spec's words, for
comparison with what the code accepts: "strings matching a numeric pattern
(digits, at most one leading minus, at most one decimal point)" — after an
optional single leading minus, the string is digits and at most one decimal
point, with at least one digit. -/
def specBodyOk (body : List Char) : Bool :=
  body.any Char.isDigit && body.all (fun c => c.isDigit || c = '.') &&
    countChar '.' body ≤ 1

/-- The spec's pattern applied after stripping the optional leading minus. -/
def specNumericStr (s : String) : Bool :=
  match s.data with
  | '-' :: t => specBodyOk t
  | cs => specBodyOk cs

/-! ### Payload normalization (`_handle_message`, the `parameters` loop) -/

/-- One key's value through the normalization loop in `_handle_message`:
`isinstance(v, (int, float))` keeps numbers *and Python booleans* unchanged;
a string passing `numericStringCheck` is kept as `float(v)` when that parse
succeeds (the `except ValueError: pass` drops it otherwise); everything else
is dropped. -/
def normalizeValue (v : JsonVal) : Option JsonVal :=
  match v with
  | .num q => some (.num q)
  | .bool b => some (.bool b)
  | .str s => if numericStringCheck s then (pyFloat? s).map .num else none
  | _ => none

/-- The whole normalization pass over a decoded JSON object's members. -/
def normalizeParams (members : List (String × JsonVal)) : List (String × JsonVal) :=
  members.filterMap (fun kv => (normalizeValue kv.2).map (fun w => (kv.1, w)))

/-! ### Data model (`devices/models.py`) -/

/-- A `Device` row, restricted to the fields the ingestion core reads.
Nullable/blank Django CharFields are `Option String` (Python treats both
`None` and `''` as falsy, see `truthyStr`); MQTT credentials, TLS material
and the topic-prefix field are omitted because no modelled path reads them. -/
structure Device where
  id : ℕ
  name : String
  hardware_address : String
  is_active : Bool
  mqtt_broker_host : Option String
  mqtt_broker_port : ℕ
  mqtt_topic_pattern : Option String
deriving Repr, DecidableEq

/-- Python truthiness of a nullable string field: `None` and `''` are falsy. -/
def truthyStr : Option String → Bool
  | some s => s != ""
  | none => false

/-- `device.mqtt_broker_port or 1883`: a falsy (zero) port falls back. -/
def portOr1883 (p : ℕ) : ℕ := if p = 0 then 1883 else p

/-- First-match association-list lookup: Python `dict.get` over our model of
a dict with unique keys (also used for Django `.filter(key=...).first()`
lookups keyed by strings). -/
def lookupA {β : Type} : List (String × β) → String → Option β
  | [], _ => none
  | (k', v) :: rest, k => if k' = k then some v else lookupA rest k

/-- Python `dict[k] = v`: replace the value at an existing key, else append. -/
def mapSet (m : List (String × ℕ)) (k : String) (v : ℕ) : List (String × ℕ) :=
  match m with
  | [] => [(k, v)]
  | (k', v') :: rest => if k' = k then (k, v) :: rest else (k', v') :: mapSet rest k v

/-- Python `str.endswith` over char lists. -/
def strEndsWith (s suffixStr : String) : Bool := suffixStr.data.isSuffixOf s.data

/-- Python `str.startswith` over char lists. -/
def strStartsWith (s start : String) : Bool := start.data.isPrefixOf s.data

/-! ### Topic resolution (`MQTTConnectionManager._handle_message`) -/

/-- Which strategy matched a topic to a device (mirrors the distinct log
lines in `_handle_message`; `singleFallback` is the low-confidence branch). -/
inductive MatchKind where
  | exactMap
  | exactPattern
  | wildcard
  | suffix
  | singleFallback
deriving Repr, DecidableEq

/-- `Device.objects.filter(id=device_id, is_active=True).first()`. -/
def findActiveById (devices : List Device) (i : ℕ) : Option Device :=
  (devices.filter (fun d => d.id = i && d.is_active)).head?

/-- Strategy 1 of `_handle_message`: `self.device_topic_map.get(topic)` and,
when the id is truthy, `Device.objects.filter(id=device_id, is_active=True)
.first()`. -/
def exactMapResolve (m : List (String × ℕ)) (devices : List Device)
    (topic : String) : Option Device :=
  match lookupA m topic with
  | some i => if i = 0 then none else findActiveById devices i
  | none => none

/-- One iteration of the pattern loop in `_handle_message`: for a single
device, exact pattern match, then trailing-`+` wildcard match, then
hardware-address suffix match — a `break` on the first of these that hits. -/
def deviceMatch (topic : String) (d : Device) : Option MatchKind :=
  let p := d.mqtt_topic_pattern.getD ""
  if p = topic then some .exactPattern
  else if strEndsWith p "+" && strStartsWith topic (String.mk p.data.dropLast) then
    some .wildcard
  else if strEndsWith topic d.hardware_address then some .suffix
  else none

/-- The pattern loop over
`Device.objects.filter(is_active=True, mqtt_topic_pattern__isnull=False)
.exclude(mqtt_topic_pattern='')` in enumeration order: first device whose
own three checks yield a match wins. -/
def patternResolve (devices : List Device) (topic : String) :
    Option (Device × MatchKind) :=
  (devices.filter (fun d => d.is_active && truthyStr d.mqtt_topic_pattern)).findSome?
    (fun d => (deviceMatch topic d).map (fun k => (d, k)))

/-- Full resolution order of `_handle_message`: exact map entry, then the
pattern loop, then the single-active-device fallback, else unresolved. -/
def resolveDevice (m : List (String × ℕ)) (devices : List Device)
    (topic : String) : Option (Device × MatchKind) :=
  match exactMapResolve m devices topic with
  | some d => some (d, .exactMap)
  | none =>
    match patternResolve devices topic with
    | some r => some r
    | none =>
      match devices.filter (fun d => d.is_active) with
      | [d] => some (d, .singleFallback)
      | _ => none

/-! ### Connection pool state (`MQTTConnectionManager`, `subscribe_device`) -/

/-- The pool's three maps: `self.clients` (modelled by the set of broker
keys holding a live client), `self.subscribed_topics`, and
`self.device_topic_map`. -/
structure PoolState where
  clients : List String
  subs : List (String × List String)
  device_topic_map : List (String × ℕ)
deriving Repr, DecidableEq

/-- `self._get_broker_key(host, port)`. -/
def brokerKey (host : String) (port : ℕ) : String :=
  host ++ ":" ++ toString port

/-- `self.subscribed_topics[broker_key]` (a `defaultdict(set)`). -/
def subsFor (st : PoolState) (bk : String) : List String :=
  (lookupA st.subs bk).getD []

/-- `set.add` on one broker's topic set inside `self.subscribed_topics`. -/
def subsAdd (subs : List (String × List String)) (bk topic : String) :
    List (String × List String) :=
  match subs with
  | [] => [(bk, [topic])]
  | (b, ts) :: rest =>
    if b = bk then (b, if ts.contains topic then ts else ts ++ [topic]) :: rest
    else (b, ts) :: subsAdd rest bk topic

/-- Result of one `subscribe_device` call: the new pool state and how many
underlying `client.subscribe` calls were issued. -/
structure SubResult where
  state : PoolState
  subscribeCalls : ℕ
deriving Repr, DecidableEq

/-- The part of `MQTTConnectionManager.subscribe_device` that runs once a
pooled client exists: skip (but refresh `device_topic_map`) when the exact
topic is already in the broker's topic set, else issue one
`client.subscribe`; `subOk` is whether it returns `MQTT_ERR_SUCCESS`
(bookkeeping is recorded only on success). -/
def subscribeOnClient (st' : PoolState) (bk topic : String) (deviceId : ℕ)
    (subOk : Bool) : SubResult :=
  if (subsFor st' bk).contains topic then
    ⟨{ st' with device_topic_map := mapSet st'.device_topic_map topic deviceId }, 0⟩
  else if subOk then
    ⟨{ st' with
        subs := subsAdd st'.subs bk topic,
        device_topic_map := mapSet st'.device_topic_map topic deviceId }, 1⟩
  else ⟨st', 1⟩

/-- `MQTTConnectionManager.subscribe_device`, continued: the inactive and
unconfigured early returns, then `_get_client` (reuse a pooled client, else
create one — on `connect` failure `_get_client` raises and the method's
`except` arm logs and returns with the pool untouched), then
`subscribeOnClient`. -/
def subscribe_device (st : PoolState) (d : Device) (connectOk subOk : Bool) :
    SubResult :=
  if !d.is_active then ⟨st, 0⟩
  else if !truthyStr d.mqtt_broker_host || !truthyStr d.mqtt_topic_pattern then
    ⟨st, 0⟩
  else
    let bk := brokerKey (d.mqtt_broker_host.getD "") (portOr1883 d.mqtt_broker_port)
    let topic := d.mqtt_topic_pattern.getD ""
    if st.clients.contains bk then subscribeOnClient st bk topic d.id subOk
    else if connectOk then
      subscribeOnClient { st with clients := st.clients ++ [bk] } bk topic d.id subOk
    else ⟨st, 0⟩

/-! ### Thresholds and alarms (`devices/models.py`, `devices/services.py`) -/

/-- `Alarm.TYPE_MIN` / `Alarm.TYPE_MAX`. -/
inductive AlarmType where
  | min
  | max
deriving Repr, DecidableEq

/-- A `Threshold` row: optional min and/or max for one (device, key) pair
(devices referenced by id). -/
structure Threshold where
  device : ℕ
  parameter_key : String
  min : Option ℚ
  max : Option ℚ
deriving Repr, DecidableEq

/-- An `Alarm` row, restricted to the fields the core writes or queries
(timestamps and acknowledger identity omitted). -/
structure Alarm where
  device : ℕ
  parameter_key : String
  parameter_label : String
  value : ℚ
  threshold : ℚ
  type : AlarmType
  acknowledged : Bool
deriving Repr, DecidableEq

/-- `Alarm.objects.filter(device=…, parameter_key=…, acknowledged=False)
.exists()` — note it does not filter on the breach type. -/
def hasUnacknowledged (alarms : List Alarm) (dev : ℕ) (key : String) : Bool :=
  alarms.any (fun a => a.device = dev && a.parameter_key = key && !a.acknowledged)

/-- `get_parameter_label`: UI label from the `ParameterMapping` store
(hardware key → label), falling back to the key itself. -/
def get_parameter_label (mappings : List (String × String)) (key : String) :
    String :=
  (lookupA mappings key).getD key

/-- Python `float(value)` on a value out of a parameters dict: numbers pass,
`float(True) = 1.0` / `float(False) = 0.0`, parseable strings parse, and
everything else raises `TypeError`/`ValueError` (modelled as `none`, which
the caller's `except (TypeError, ValueError): continue` turns into a skip). -/
def pyFloatOfVal (v : JsonVal) : Option ℚ :=
  match v with
  | .num q => some q
  | .bool b => some (if b then 1 else 0)
  | .str s => pyFloat? s
  | _ => none

/-- One threshold's iteration of the loop in
`check_thresholds_and_create_alarms`, acting on (current alarm table,
alarms created so far).  The min check runs first; the max check re-queries
the alarm table, so an alarm just created by the min check suppresses it. -/
def checkThresholdStep (dev : ℕ) (mappings : List (String × String))
    (params : List (String × JsonVal)) (th : Threshold)
    (st : List Alarm × List Alarm) : List Alarm × List Alarm :=
  match lookupA params th.parameter_key with
  | none => st
  | some raw =>
    match pyFloatOfVal raw with
    | none => st
    | some value =>
      let label := get_parameter_label mappings th.parameter_key
      let afterMin : List Alarm × List Alarm :=
        match th.min with
        | some lo =>
          if value < lo && !hasUnacknowledged st.1 dev th.parameter_key then
            let a : Alarm :=
              ⟨dev, th.parameter_key, label, value, lo, .min, false⟩
            (st.1 ++ [a], st.2 ++ [a])
          else st
        | none => st
      match th.max with
      | some hi =>
        if value > hi && !hasUnacknowledged afterMin.1 dev th.parameter_key then
          let a : Alarm :=
            ⟨dev, th.parameter_key, label, value, hi, .max, false⟩
          (afterMin.1 ++ [a], afterMin.2 ++ [a])
        else afterMin
      | none => afterMin

/-- `check_thresholds_and_create_alarms(device, parameters)` as a state
transformer on the alarm table: returns the table after the pass and the
list of alarms created by the pass (the function's return value).  The
guard mirrors `if not parameters or not isinstance(parameters, dict):
return []`. -/
def check_thresholds_and_create_alarms (dev : ℕ) (thresholds : List Threshold)
    (mappings : List (String × String)) (params : List (String × JsonVal))
    (alarms : List Alarm) : List Alarm × List Alarm :=
  if params.isEmpty then (alarms, [])
  else
    (thresholds.filter (fun th => th.device = dev)).foldl
      (fun st th => checkThresholdStep dev mappings params th st) (alarms, [])

/-! ### Best-effort notification (`_send_alarm_email`) -/

/-- The body of `_send_alarm_email`: `send_mail` (already called with
`fail_silently=True`) may still raise, e.g. while rendering or importing;
`emailFails` injects such a failure. -/
def sendAlarmEmailBody (emailFails : Bool) : Except String Unit :=
  if emailFails then .error "NotificationFailure" else .ok ()

/-- `_send_alarm_email`: the whole body sits in
`try: … except Exception: logger.warning(…)`, so the caller always gets a
normal return. -/
def send_alarm_email (emailFails : Bool) : Except String Unit :=
  match sendAlarmEmailBody emailFails with
  | .ok _ => .ok ()
  | .error _ => .ok ()

/-- `checkThresholdStep` in the exception monad, with `_send_alarm_email`
invoked (as in the source) right after each `Alarm.objects.create`. -/
def checkThresholdStepE (emailFails : Bool) (dev : ℕ)
    (mappings : List (String × String)) (params : List (String × JsonVal))
    (th : Threshold) (st : List Alarm × List Alarm) :
    Except String (List Alarm × List Alarm) :=
  match lookupA params th.parameter_key with
  | none => .ok st
  | some raw =>
    match pyFloatOfVal raw with
    | none => .ok st
    | some value =>
      let label := get_parameter_label mappings th.parameter_key
      do
        let afterMin ←
          match th.min with
          | some lo =>
            if value < lo && !hasUnacknowledged st.1 dev th.parameter_key then do
              let a : Alarm :=
                ⟨dev, th.parameter_key, label, value, lo, .min, false⟩
              let _ ← send_alarm_email emailFails
              pure (st.1 ++ [a], st.2 ++ [a])
            else pure st
          | none => pure st
        match th.max with
        | some hi =>
          if value > hi && !hasUnacknowledged afterMin.1 dev th.parameter_key then do
            let a : Alarm :=
              ⟨dev, th.parameter_key, label, value, hi, .max, false⟩
            let _ ← send_alarm_email emailFails
            pure (afterMin.1 ++ [a], afterMin.2 ++ [a])
          else pure afterMin
        | none => pure afterMin

/-- `check_thresholds_and_create_alarms` with the notification calls kept in
the exception monad, so that a raising notification path would surface here. -/
def checkThresholdsE (emailFails : Bool) (dev : ℕ) (thresholds : List Threshold)
    (mappings : List (String × String)) (params : List (String × JsonVal))
    (alarms : List Alarm) : Except String (List Alarm × List Alarm) :=
  if params.isEmpty then .ok (alarms, [])
  else
    (thresholds.filter (fun th => th.device = dev)).foldlM
      (fun st th => checkThresholdStepE emailFails dev mappings params th st)
      (alarms, [])

/-! ### The message handler (`MQTTConnectionManager._handle_message`) -/

/-- The read-only and written database tables the handler touches. -/
structure Db where
  devices : List Device
  thresholds : List Threshold
  mappings : List (String × String)
  alarms : List Alarm
deriving Repr

/-- Outcome of `msg.payload.decode('utf-8')` followed by `json.loads`:
undecodable bytes raise `UnicodeDecodeError` (uncaught until the outer
handler `except`); undecodable text raises `json.JSONDecodeError` (caught
and logged in place); otherwise a JSON value. -/
inductive PayloadParse where
  | notUtf8
  | notJsonText (s : String)
  | jsonOf (v : JsonVal)
deriving Repr

/-- Injected exceptions for the handler's fallible collaborators: the device
resolution queries, `DeviceData.objects.create`/`device.save`, and the
threshold evaluation call.  `none` means the step succeeds. -/
structure Faults where
  resolveFault : Option String
  persistFault : Option String
  thresholdFault : Option String
deriving Repr, DecidableEq

/-- The handler's "no device found" diagnostic:
`values_list('id', 'name', 'hardware_address', 'mqtt_topic_pattern')` over
the active devices, with a blank pattern shown as `"Not set"`. -/
def diagEntry (d : Device) : ℕ × String × String × String :=
  (d.id, d.name, d.hardware_address,
   if truthyStr d.mqtt_topic_pattern then d.mqtt_topic_pattern.getD ""
   else "Not set")

/-- What one `_handle_message` run did, when it ran to a normal return. -/
inductive HandleOutcome where
  | noDevice (diag : List (ℕ × String × String × String))
  | invalidJson
  | nonDictPayload
  | noNumericParams
  | stored (deviceId : ℕ) (params : List (String × JsonVal))
      (alarmsCreated : List Alarm)
deriving Repr

/-- The body of `_handle_message` (everything inside its `try`), in source
order: resolve the device (early logged return when unresolved), decode and
parse the payload, normalize, persist, evaluate thresholds. -/
def handleMessageBody (f : Faults) (m : List (String × ℕ)) (db : Db)
    (topic : String) (payload : PayloadParse) : Except String HandleOutcome :=
  match f.resolveFault with
  | some e => .error e
  | none =>
    match resolveDevice m db.devices topic with
    | none =>
      .ok (.noDevice ((db.devices.filter (fun d => d.is_active)).map diagEntry))
    | some (d, _) =>
      match payload with
      | .notUtf8 => .error "UnicodeDecodeError"
      | .notJsonText _ => .ok .invalidJson
      | .jsonOf v =>
        match v with
        | .obj members =>
          let params := normalizeParams members
          if params.isEmpty then .ok .noNumericParams
          else
            match f.persistFault with
            | some e => .error e
            | none =>
              match f.thresholdFault with
              | some e => .error e
              | none =>
                let r := check_thresholds_and_create_alarms d.id db.thresholds
                  db.mappings params db.alarms
                .ok (.stored d.id params r.2)
        | _ => .ok .nonDictPayload

/-- How one handler invocation ended, as seen by the receive loop:
`completed` and `loggedError` are normal returns (`loggedError` is the outer
`except Exception: logger.exception(…)` arm); `propagated` would be an
exception escaping into the shared receive loop. -/
inductive HandlerResult where
  | completed (o : HandleOutcome)
  | loggedError (e : String)
  | propagated (e : String)
deriving Repr

/-- `_handle_message`: the whole body runs inside
`try: … except Exception as e: logger.exception(…)`. -/
def handle_message (f : Faults) (m : List (String × ℕ)) (db : Db)
    (topic : String) (payload : PayloadParse) : HandlerResult :=
  match handleMessageBody f m db topic payload with
  | .ok o => .completed o
  | .error e => .loggedError e

/-- Number of `DeviceData` rows created by a handler invocation. -/
def telemetryRecords : HandlerResult → ℕ
  | .completed (.stored _ _ _) => 1
  | _ => 0

/-- Whether a `HandlerResult` is an exception that escaped the handler. -/
def isPropagated : HandlerResult → Bool
  | .propagated _ => true
  | _ => false

/-! ### The connection probe (`test_mqtt_connection`,
`MQTTTestSerializer.timeout_seconds`) -/

/-- One message captured by the probe's `on_message` (the fields of its
`message_data` dict that the result aggregation reads). -/
structure ProbeMessage where
  topic : String
  raw_payload : String
  hardware_address : Option String
  parameter_keys : List String
deriving Repr, DecidableEq

/-- The dict returned by `test_mqtt_connection`. -/
structure ProbeResult where
  success : Bool
  connection_status : String
  messages : List ProbeMessage
  detected_hardware_addresses : List String
  all_parameter_keys : List String
  error : Option String
deriving Repr, DecidableEq

/-- How the connect phase ended: `noAck` — `connection_event.wait(timeout=10)`
expired with no acknowledgment; `refused code` — the broker answered with a
nonzero reason code; `accepted` — connected. -/
inductive ConnectOutcome where
  | noAck
  | refused (code : ℕ)
  | accepted
deriving Repr, DecidableEq

/-- The connect-acknowledgment deadline hard-coded in
`connection_event.wait(timeout=10)`. -/
def connectAckTimeoutSeconds : ℕ := 10

/-- `test_mqtt_connection`, abstracted over the connect outcome and over the
messages the broker delivers during the listen window (`time.sleep
(timeout_seconds)`).  `list(set(…))` dedup of addresses and keys is modelled
order-deterministically by `List.dedup`. -/
def test_mqtt_connection (co : ConnectOutcome) (captured : List ProbeMessage)
    (_timeout_seconds : ℕ) : ProbeResult :=
  match co with
  | .noAck =>
    { success := false
      connection_status := "timeout"
      messages := []
      detected_hardware_addresses := []
      all_parameter_keys := []
      error := some "Connection timeout - broker did not respond within 10 seconds" }
  | .refused code =>
    { success := false
      connection_status := "failed (code: " ++ toString code ++ ")"
      messages := []
      detected_hardware_addresses := []
      all_parameter_keys := []
      error := some ("MQTT connection failed with code: " ++ toString code) }
  | .accepted =>
    { success := true
      connection_status := "connected"
      messages := captured
      detected_hardware_addresses :=
        (captured.filterMap (fun msg => msg.hardware_address)).dedup
      all_parameter_keys := ((captured.map (fun msg => msg.parameter_keys)).flatten).dedup
      error := none }

/-- `MQTTTestSerializer.timeout_seconds`
(`IntegerField(default=15, min_value=5, max_value=60)`): absent input takes
the default; out-of-range input is rejected with a validation error. -/
def timeoutSecondsField : Option ℤ → Except String ℤ
  | none => .ok 15
  | some t =>
    if t < 5 then .error "Ensure this value is greater than or equal to 5."
    else if t > 60 then .error "Ensure this value is less than or equal to 60."
    else .ok t

/-! ### The unacknowledged-alarm invariant and concrete fixtures -/

/-- The spec's invariant: at most one unacknowledged alarm per
(device, parameter_key), regardless of breach type. -/
def unackInvariant (alarms : List Alarm) : Prop :=
  ∀ dev key, (alarms.filter (fun a => a.device = dev && a.parameter_key = key
      && !a.acknowledged)).length ≤ 1

/-- Fixture: an active device whose configured pattern is `EM/101`. -/
def devA : Device :=
  ⟨1, "A", "99999", true, some "mqtt.example.com", 1883, some "EM/101"⟩

/-- Fixture: an active device whose hardware address `101` is a suffix of
the topic `EM/101`, with an unrelated configured pattern. -/
def devB : Device :=
  ⟨2, "B", "101", true, some "mqtt.example.com", 1883, some "OTHER/topic"⟩

/-- Fixture: an inactive but fully configured device. -/
def devInactive : Device :=
  ⟨7, "C", "12345", false, some "mqtt.example.com", 1883, some "EM/12345"⟩

/-- Fixture: an active configured device (spec's end-to-end example). -/
def devD : Device :=
  ⟨3, "D", "46521", true, some "mqtt.example.com", 1883, some "EM/46521"⟩

/-- Fixture: a second active device sharing `devD`'s broker and topic
pattern. -/
def devD2 : Device :=
  ⟨4, "D2", "46522", true, some "mqtt.example.com", 1883, some "EM/46521"⟩

/-- Fixture: a min-only threshold of 200 on (device 1, key `v`). -/
def thVmin : Threshold := ⟨1, "v", some 200, none⟩

/-- Fixture: the alarm the fixture threshold creates for a reading of 180. -/
def alarmVmin : Alarm := ⟨1, "v", "v", 180, 200, .min, false⟩

/-! ## Helper lemmas

String/list facts connecting the code's numeric-string gate
(`numericStringCheck` plus `float`) to the spec's stated pattern, and
small bookkeeping lemmas used by the claim theorems. -/

theorem removeFirst_of_not_mem {c : Char} {cs : List Char} (h : c ∉ cs) :
    removeFirst c cs = cs := by
  induction cs with
  | nil => rfl
  | cons x xs ih =>
    simp only [List.mem_cons, not_or] at h
    simp [removeFirst, Ne.symm h.1, ih h.2]

theorem removeFirst_subset {a c : Char} {cs : List Char}
    (h : a ∈ removeFirst c cs) : a ∈ cs := by
  induction cs with
  | nil => simp [removeFirst] at h
  | cons x xs ih =>
    by_cases hx : x = c
    · simp only [removeFirst, if_pos hx] at h
      exact List.mem_cons_of_mem _ h
    · simp only [removeFirst, if_neg hx, List.mem_cons] at h
      rcases h with h | h
      · exact h ▸ List.mem_cons_self _ _
      · exact List.mem_cons_of_mem _ (ih h)

theorem mem_removeFirst_of_ne {a c : Char} {cs : List Char} (h : a ∈ cs)
    (hne : a ≠ c) : a ∈ removeFirst c cs := by
  induction cs with
  | nil => simp at h
  | cons x xs ih =>
    rcases List.mem_cons.mp h with rfl | h
    · simp [removeFirst, hne]
    · by_cases hx : x = c
      · simpa [removeFirst, hx] using h
      · simp only [removeFirst, if_neg hx, List.mem_cons]
        exact Or.inr (ih h)

theorem removeFirst_append_of_not_mem {A B : List Char} {c : Char} (h : c ∉ A) :
    removeFirst c (A ++ c :: B) = A ++ B := by
  induction A with
  | nil => simp [removeFirst]
  | cons x xs ih =>
    simp only [List.mem_cons, not_or] at h
    simp [removeFirst, Ne.symm h.1, ih h.2]

theorem pyIsdigit_eq_false_of_mem {c : Char} {cs : List Char} (hm : c ∈ cs)
    (hd : ¬ c.isDigit = true) : pyIsdigit cs = false := by
  unfold pyIsdigit
  have hfalse : cs.all Char.isDigit = false := by
    rw [Bool.eq_false_iff]
    intro hall
    exact hd (List.all_eq_true.mp hall c hm)
  rw [hfalse, Bool.and_false]

theorem countChar_eq_zero {c : Char} {cs : List Char} :
    countChar c cs = 0 ↔ c ∉ cs := by
  induction cs with
  | nil => simp [countChar]
  | cons x xs ih =>
    by_cases hx : x = c
    · simp [countChar, hx]
    · simp [countChar, hx, ih, Ne.symm hx]

theorem exists_split_of_countChar_one {c : Char} {cs : List Char}
    (h : countChar c cs = 1) :
    ∃ A B, cs = A ++ c :: B ∧ c ∉ A ∧ c ∉ B := by
  induction cs with
  | nil => simp [countChar] at h
  | cons x xs ih =>
    by_cases hx : x = c
    · subst hx
      simp only [countChar, if_pos] at h
      have h0 : countChar x xs = 0 := by omega
      exact ⟨[], xs, by simp, by simp, countChar_eq_zero.mp h0⟩
    · simp only [countChar, if_neg hx, Nat.zero_add] at h
      obtain ⟨A, B, hAB, hA, hB⟩ := ih h
      refine ⟨x :: A, B, by simp [hAB], ?_, hB⟩
      simp only [List.mem_cons, not_or]
      exact ⟨fun hcx => hx hcx.symm, hA⟩

theorem takeWhile_digits_append {A : List Char} (hA : ∀ a ∈ A, a.isDigit = true)
    {x : Char} (hx : ¬ x.isDigit = true) (B : List Char) :
    (A ++ x :: B).takeWhile Char.isDigit = A := by
  induction A with
  | nil => simp [List.takeWhile_cons, hx]
  | cons a as ih =>
    have ha := hA a (by simp)
    simp only [List.cons_append, List.takeWhile_cons, ha, if_true]
    rw [ih (fun b hb => hA b (by simp [hb]))]

theorem dropWhile_digits_append {A : List Char} (hA : ∀ a ∈ A, a.isDigit = true)
    {x : Char} (hx : ¬ x.isDigit = true) (B : List Char) :
    (A ++ x :: B).dropWhile Char.isDigit = x :: B := by
  induction A with
  | nil => simp [List.dropWhile_cons, hx]
  | cons a as ih =>
    have ha := hA a (by simp)
    simp only [List.cons_append, List.dropWhile_cons, ha, if_true]
    exact ih (fun b hb => hA b (by simp [hb]))

theorem countChar_append (c : Char) (A B : List Char) :
    countChar c (A ++ B) = countChar c A + countChar c B := by
  induction A with
  | nil => simp [countChar]
  | cons x xs ih => simp [countChar, ih]; omega

theorem countChar_eq_zero_of_digits {cs : List Char}
    (h : ∀ a ∈ cs, a.isDigit = true) : countChar '.' cs = 0 := by
  rw [countChar_eq_zero]
  intro hm
  simpa using h _ hm

theorem pyFloatAux_cons_ne_dot {I : List Char} {r : Char} {F : List Char}
    (hr : ¬ r = '.') : pyFloatAux I (r :: F) = none := by
  unfold pyFloatAux
  split
  · rename_i heq
    simp at heq
  · rename_i frac heq
    rw [List.cons.injEq] at heq
    exact absurd heq.1 hr
  · rfl

theorem specBodyOk_of_mag_isSome {t : List Char}
    (h : (pyFloatMag? t).isSome = true) : specBodyOk t = true := by
  have hsplit := List.takeWhile_append_dropWhile Char.isDigit t
  have hI : ∀ a ∈ t.takeWhile Char.isDigit, a.isDigit = true :=
    fun a ha => List.mem_takeWhile_imp ha
  unfold pyFloatMag? at h
  rw [← hsplit]
  cases hR : t.dropWhile Char.isDigit with
  | nil =>
    rw [hR] at h
    simp only [pyFloatAux] at h
    by_cases hIe : (t.takeWhile Char.isDigit).isEmpty
    · simp [hIe] at h
    · simp only [specBodyOk, Bool.and_eq_true]
      refine ⟨⟨?_, ?_⟩, ?_⟩
      · cases hC : t.takeWhile Char.isDigit with
        | nil => rw [hC] at hIe; simp [List.isEmpty] at hIe
        | cons a as =>
          simp only [List.append_nil, hC, List.any_cons, Bool.or_eq_true]
          exact Or.inl (hI a (by rw [hC]; simp))
      · simp only [List.all_eq_true, List.append_nil]
        intro a ha
        simp [hI a ha]
      · simp [countChar_append, countChar_eq_zero_of_digits hI, countChar]
  | cons r F =>
    rw [hR] at h
    by_cases hr : r = '.'
    · subst hr
      simp only [pyFloatAux] at h
      by_cases hguard :
        (F.all Char.isDigit && !((t.takeWhile Char.isDigit).isEmpty && F.isEmpty)) = true
      · rw [Bool.and_eq_true] at hguard
        obtain ⟨hFall, hne⟩ := hguard
        have hF : ∀ a ∈ F, a.isDigit = true := List.all_eq_true.mp hFall
        have hnonempty : ¬ t.takeWhile Char.isDigit = [] ∨ ¬ F = [] := by
          by_cases h1 : t.takeWhile Char.isDigit = []
          · refine Or.inr (fun h2 => ?_)
            rw [h1, h2] at hne
            simp at hne
          · exact Or.inl h1
        simp only [specBodyOk, Bool.and_eq_true]
        refine ⟨⟨?_, ?_⟩, ?_⟩
        · rcases hnonempty with hIne | hFne
          · cases hC : t.takeWhile Char.isDigit with
            | nil => exact absurd hC hIne
            | cons a as =>
              simp only [hC, List.cons_append, List.any_cons, Bool.or_eq_true]
              exact Or.inl (hI a (by rw [hC]; simp))
          · cases F with
            | nil => exact absurd rfl hFne
            | cons b bs =>
              simp only [List.any_append, List.any_cons, Bool.or_eq_true]
              exact Or.inr (Or.inr (Or.inl (hF b (by simp))))
        · simp only [List.all_append, List.all_cons, List.all_eq_true, Bool.and_eq_true]
          refine ⟨fun a ha => by simp [hI a ha], ?_⟩
          constructor
          · simp
          · intro a ha
            simp [hF a ha]
        · rw [countChar_append]
          simp only [countChar]
          rw [countChar_eq_zero_of_digits hI, countChar_eq_zero_of_digits hF]
          simp
      · rw [if_neg hguard] at h
        simp at h
    · rw [pyFloatAux_cons_ne_dot hr] at h
      simp at h


theorem mag_isSome_of_specBodyOk {t : List Char} (h : specBodyOk t = true) :
    (pyFloatMag? t).isSome = true ∧ pyIsdigit (removeFirst '.' t) = true := by
  unfold specBodyOk at h
  rw [Bool.and_eq_true, Bool.and_eq_true] at h
  obtain ⟨⟨hany, hall'⟩, hcnt'⟩ := h
  have hall : ∀ a ∈ t, (a.isDigit || decide (a = '.')) = true := List.all_eq_true.mp hall'
  have hcnt : countChar '.' t ≤ 1 := of_decide_eq_true hcnt'
  obtain ⟨w, hw, hwd⟩ := List.any_eq_true.mp hany
  rcases Nat.le_one_iff_eq_zero_or_eq_one.mp hcnt with hc | hc
  · -- no dot: t is nonempty and all digits
    have hdot : '.' ∉ t := countChar_eq_zero.mp hc
    have hdig : ∀ a ∈ t, a.isDigit = true := by
      intro a ha
      rcases Bool.or_eq_true .. |>.mp (hall a ha) with hd | he
      · exact hd
      · exact absurd (of_decide_eq_true he ▸ ha) hdot
    have hne : t ≠ [] := by
      intro he
      rw [he] at hw
      simp at hw
    constructor
    · unfold pyFloatMag?
      rw [List.dropWhile_eq_nil_iff.mpr (by intro x hx; exact hdig x hx),
        List.takeWhile_eq_self_iff.mpr (by intro x hx; exact hdig x hx)]
      simp [pyFloatAux, List.isEmpty_iff, hne]
    · rw [removeFirst_of_not_mem hdot]
      unfold pyIsdigit
      have h1 : t.isEmpty = false := by
        cases t with
        | nil => exact absurd rfl hne
        | cons a as => simp
      rw [h1, List.all_eq_true.mpr hdig]
      rfl
  · -- exactly one dot
    obtain ⟨A, B, rfl, hA, hB⟩ := exists_split_of_countChar_one hc
    have hAdig : ∀ a ∈ A, a.isDigit = true := by
      intro a ha
      rcases Bool.or_eq_true .. |>.mp (hall a (by simp [ha])) with hd | he
      · exact hd
      · exact absurd (of_decide_eq_true he ▸ ha) hA
    have hBdig : ∀ a ∈ B, a.isDigit = true := by
      intro a ha
      rcases Bool.or_eq_true .. |>.mp (hall a (by simp [ha])) with hd | he
      · exact hd
      · exact absurd (of_decide_eq_true he ▸ ha) hB
    have hABne : ¬(A = [] ∧ B = []) := by
      rintro ⟨rfl, rfl⟩
      simp only [List.nil_append, List.mem_singleton] at hw
      rw [hw] at hwd
      simp at hwd
    constructor
    · unfold pyFloatMag?
      rw [takeWhile_digits_append hAdig (by decide) B,
        dropWhile_digits_append hAdig (by decide) B]
      simp only [pyFloatAux]
      have hemp : (A.isEmpty && B.isEmpty) = false := by
        cases A with
        | nil =>
          cases B with
          | nil => exact absurd ⟨rfl, rfl⟩ hABne
          | cons b bs => simp
        | cons a as => simp
      rw [if_pos (show (B.all Char.isDigit && !(A.isEmpty && B.isEmpty)) = true by
        rw [List.all_eq_true.mpr hBdig, hemp]; rfl)]
      rfl
    · rw [removeFirst_append_of_not_mem hA]
      unfold pyIsdigit
      have hne : ¬ A ++ B = [] := by
        intro he
        rcases List.append_eq_nil.mp he with ⟨h1, h2⟩
        exact hABne ⟨h1, h2⟩
      have h1 : (A ++ B).isEmpty = false := by
        cases hAB : A ++ B with
        | nil => exact absurd hAB hne
        | cons a as => simp
      rw [h1, List.all_eq_true.mpr (by
        intro x hx
        rcases List.mem_append.mp hx with hxa | hxb
        · exact hAdig x hxa
        · exact hBdig x hxb)]
      rfl


theorem no_minus_of_specBodyOk {u : List Char} (h : specBodyOk u = true) :
    '-' ∉ u := by
  unfold specBodyOk at h
  rw [Bool.and_eq_true, Bool.and_eq_true] at h
  intro hm
  have := List.all_eq_true.mp h.1.2 '-' hm
  simp at this

theorem signed_code_eq_spec (t : List Char) :
    (pyIsdigit (removeFirst '.' t) && (pyFloatMag? t).isSome) = specBodyOk t := by
  by_cases hs : specBodyOk t = true
  · obtain ⟨h1, h2⟩ := mag_isSome_of_specBodyOk hs
    rw [hs, h1, h2]
    rfl
  · rw [Bool.eq_false_iff.mpr hs]
    cases hpy : (pyFloatMag? t).isSome
    · rw [Bool.and_false]
    · exact absurd (specBodyOk_of_mag_isSome hpy) hs

theorem unsigned_code_eq_spec (u : List Char) :
    (pyIsdigit (removeFirst '-' (removeFirst '.' u)) && (pyFloatMag? u).isSome)
      = specBodyOk u := by
  by_cases hs : specBodyOk u = true
  · obtain ⟨h1, h2⟩ := mag_isSome_of_specBodyOk hs
    have hnm : '-' ∉ removeFirst '.' u :=
      fun hm => no_minus_of_specBodyOk hs (removeFirst_subset hm)
    rw [hs, h1, removeFirst_of_not_mem hnm, h2]
    rfl
  · rw [Bool.eq_false_iff.mpr hs]
    cases hpy : (pyFloatMag? u).isSome
    · rw [Bool.and_false]
    · exact absurd (specBodyOk_of_mag_isSome hpy) hs

theorem numeric_gate_eq_spec_pattern (s : String) :
    (numericStringCheck s && (pyFloat? s).isSome) = specNumericStr s := by
  obtain ⟨cs⟩ := s
  rcases cs with _ | ⟨c, t⟩
  · rfl
  · by_cases hminus : c = '-'
    · subst hminus
      have e1 : numericStringCheck ⟨'-' :: t⟩ = pyIsdigit (removeFirst '.' t) := by
        unfold numericStringCheck
        show pyIsdigit (removeFirst '-' (removeFirst '.' ('-' :: t))) = _
        simp [removeFirst]
      have e2 : pyFloat? ⟨'-' :: t⟩ = (pyFloatMag? t).map (fun m => -m) := rfl
      have e3 : specNumericStr ⟨'-' :: t⟩ = specBodyOk t := rfl
      have e4 : (Option.map (fun m : ℚ => -m) (pyFloatMag? t)).isSome
          = (pyFloatMag? t).isSome := by
        cases pyFloatMag? t <;> rfl
      rw [e1, e2, e3, e4]
      exact signed_code_eq_spec t
    · by_cases hplus : c = '+'
      · subst hplus
        have hmem : '+' ∈ removeFirst '-' (removeFirst '.' ('+' :: t)) :=
          mem_removeFirst_of_ne
            (mem_removeFirst_of_ne (List.mem_cons_self _ _) (by decide)) (by decide)
        have e1 : numericStringCheck ⟨'+' :: t⟩ = false := by
          unfold numericStringCheck
          show pyIsdigit (removeFirst '-' (removeFirst '.' ('+' :: t))) = false
          exact pyIsdigit_eq_false_of_mem hmem (by decide)
        have e3 : specNumericStr ⟨'+' :: t⟩ = specBodyOk ('+' :: t) := rfl
        rw [e1, e3, Bool.false_and]
        unfold specBodyOk
        have : ('+' :: t).all (fun c => c.isDigit || decide (c = '.')) = false := by
          rw [Bool.eq_false_iff]
          intro hall
          have := List.all_eq_true.mp hall '+' (by simp)
          simp at this
        rw [this, Bool.and_false, Bool.false_and]
      · have e1 : numericStringCheck ⟨c :: t⟩
            = pyIsdigit (removeFirst '-' (removeFirst '.' (c :: t))) := rfl
        have e2 : pyFloat? ⟨c :: t⟩ = pyFloatMag? (c :: t) := by
          unfold pyFloat?
          show (match c :: t with
            | '-' :: t => (pyFloatMag? t).map (fun m => -m)
            | '+' :: t => pyFloatMag? t
            | cs => pyFloatMag? cs) = _
          split
          · rename_i heq
            rw [List.cons.injEq] at heq
            exact absurd heq.1 hminus
          · rename_i heq
            rw [List.cons.injEq] at heq
            exact absurd heq.1 hplus
          · rfl
        have e3 : specNumericStr ⟨c :: t⟩ = specBodyOk (c :: t) := by
          unfold specNumericStr
          show (match c :: t with
            | '-' :: t => specBodyOk t
            | cs => specBodyOk cs) = _
          split
          · rename_i heq
            rw [List.cons.injEq] at heq
            exact absurd heq.1 hminus
          · rfl
        rw [e1, e2, e3]
        exact unsigned_code_eq_spec (c :: t)


theorem lookupA_mapSet_self (m : List (String × ℕ)) (k : String) (v : ℕ) :
    lookupA (mapSet m k v) k = some v := by
  induction m with
  | nil => simp [mapSet, lookupA]
  | cons kv rest ih =>
    obtain ⟨k', v'⟩ := kv
    by_cases hk : k' = k
    · simp [mapSet, hk, lookupA]
    · simp [mapSet, hk, lookupA, ih]

theorem mapSet_mapSet_same (m : List (String × ℕ)) (k : String) (v : ℕ) :
    mapSet (mapSet m k v) k v = mapSet m k v := by
  induction m with
  | nil => simp [mapSet]
  | cons kv rest ih =>
    obtain ⟨k', v'⟩ := kv
    by_cases hk : k' = k
    · simp [mapSet, hk]
    · simp [mapSet, hk, ih]

theorem contains_append_singleton (l : List String) (a : String) :
    (l ++ [a]).contains a = true := by
  induction l with
  | nil => simp
  | cons x xs ih => simp [ih]

theorem lookupA_subsAdd_self (subs : List (String × List String)) (bk t : String) :
    lookupA (subsAdd subs bk t) bk
      = some (let ts := (lookupA subs bk).getD [];
          if ts.contains t then ts else ts ++ [t]) := by
  induction subs with
  | nil => simp [subsAdd, lookupA]
  | cons kv rest ih =>
    obtain ⟨b, ts⟩ := kv
    by_cases hb : b = bk
    · simp [subsAdd, hb, lookupA]
    · simp [subsAdd, hb, lookupA, ih]

theorem subscribe_device_configured_eq (st : PoolState) (d : Device)
    (connectOk subOk : Bool) (hact : d.is_active = true)
    (hhost : truthyStr d.mqtt_broker_host = true)
    (hpat : truthyStr d.mqtt_topic_pattern = true) :
    subscribe_device st d connectOk subOk =
      (if st.clients.contains (brokerKey (d.mqtt_broker_host.getD "")
            (portOr1883 d.mqtt_broker_port)) then
        subscribeOnClient st (brokerKey (d.mqtt_broker_host.getD "")
          (portOr1883 d.mqtt_broker_port)) (d.mqtt_topic_pattern.getD "") d.id subOk
      else if connectOk then
        subscribeOnClient
          { st with clients := st.clients ++ [brokerKey (d.mqtt_broker_host.getD "")
              (portOr1883 d.mqtt_broker_port)] }
          (brokerKey (d.mqtt_broker_host.getD "") (portOr1883 d.mqtt_broker_port))
          (d.mqtt_topic_pattern.getD "") d.id subOk
      else ⟨st, 0⟩) := by
  unfold subscribe_device
  rw [hact, hhost, hpat]
  rfl


theorem subscribeOnClient_fresh (st' : PoolState) (bk topic : String) (i : ℕ)
    (hfresh : (subsFor st' bk).contains topic = false) :
    subscribeOnClient st' bk topic i true =
      ⟨{ st' with
          subs := subsAdd st'.subs bk topic,
          device_topic_map := mapSet st'.device_topic_map topic i }, 1⟩ := by
  unfold subscribeOnClient
  rw [hfresh]
  simp

theorem subscribeOnClient_existing (st' : PoolState) (bk topic : String) (i : ℕ)
    (subOk : Bool) (h : (subsFor st' bk).contains topic = true) :
    subscribeOnClient st' bk topic i subOk =
      ⟨{ st' with
          device_topic_map := mapSet st'.device_topic_map topic i }, 0⟩ := by
  unfold subscribeOnClient
  rw [h]
  simp

theorem subsFor_subs_update (st' : PoolState) (bk topic : String)
    (mp : List (String × ℕ))
    (hfresh : (subsFor st' bk).contains topic = false) :
    subsFor { st' with
        subs := subsAdd st'.subs bk topic,
        device_topic_map := mp } bk = subsFor st' bk ++ [topic] := by
  unfold subsFor at hfresh ⊢
  simp only [lookupA_subsAdd_self]
  rw [Option.getD_some]
  rw [show ((lookupA st'.subs bk).getD []).contains topic = false from hfresh]
  simp


theorem subscribe_device_fresh_state (st : PoolState) (d : Device)
    (bk topic : String)
    (hbk : bk = brokerKey (d.mqtt_broker_host.getD "") (portOr1883 d.mqtt_broker_port))
    (htopic : topic = d.mqtt_topic_pattern.getD "")
    (hact : d.is_active = true)
    (hhost : truthyStr d.mqtt_broker_host = true)
    (hpat : truthyStr d.mqtt_topic_pattern = true)
    (hfresh : (subsFor st bk).contains topic = false) :
    subscribe_device st d true true =
      ⟨{ clients := if st.clients.contains bk then st.clients else st.clients ++ [bk],
         subs := subsAdd st.subs bk topic,
         device_topic_map := mapSet st.device_topic_map topic d.id }, 1⟩ := by
  subst hbk htopic
  rw [subscribe_device_configured_eq st d true true hact hhost hpat]
  by_cases hc : st.clients.contains
      (brokerKey (d.mqtt_broker_host.getD "") (portOr1883 d.mqtt_broker_port)) = true
  · rw [if_pos hc, if_pos hc, subscribeOnClient_fresh st _ _ _ hfresh]
  · rw [if_neg hc, if_pos rfl, if_neg hc]
    exact subscribeOnClient_fresh _ _ _ _ hfresh

theorem subscribe_device_existing_topic (st : PoolState) (d : Device)
    (bk topic : String)
    (hbk : bk = brokerKey (d.mqtt_broker_host.getD "") (portOr1883 d.mqtt_broker_port))
    (htopic : topic = d.mqtt_topic_pattern.getD "")
    (hact : d.is_active = true)
    (hhost : truthyStr d.mqtt_broker_host = true)
    (hpat : truthyStr d.mqtt_topic_pattern = true)
    (hclient : st.clients.contains bk = true)
    (htop : (subsFor st bk).contains topic = true) :
    subscribe_device st d true true =
      ⟨{ st with device_topic_map := mapSet st.device_topic_map topic d.id }, 0⟩ := by
  subst hbk htopic
  rw [subscribe_device_configured_eq st d true true hact hhost hpat]
  rw [if_pos hclient, subscribeOnClient_existing _ _ _ _ _ htop]

/-- C5: subscribing the same configured active device twice, starting from a
state where its exact topic is not yet in that broker's topic set, issues
exactly one underlying `client.subscribe` call (one on the first call, zero
on the second), and the second call leaves the pool state exactly as it was
after the first. -/
theorem subscribe_device_idempotent (st : PoolState) (d : Device)
    (bk topic : String)
    (hbk : bk = brokerKey (d.mqtt_broker_host.getD "") (portOr1883 d.mqtt_broker_port))
    (htopic : topic = d.mqtt_topic_pattern.getD "")
    (hact : d.is_active = true)
    (hhost : truthyStr d.mqtt_broker_host = true)
    (hpat : truthyStr d.mqtt_topic_pattern = true)
    (hfresh : (subsFor st bk).contains topic = false) :
    (subscribe_device st d true true).subscribeCalls = 1 ∧
    (subscribe_device (subscribe_device st d true true).state d true true).subscribeCalls
      = 0 ∧
    (subscribe_device (subscribe_device st d true true).state d true true).state
      = (subscribe_device st d true true).state := by
  rw [subscribe_device_fresh_state st d bk topic hbk htopic hact hhost hpat hfresh]
  have hclient2 : (PoolState.clients
      ⟨if st.clients.contains bk then st.clients else st.clients ++ [bk],
        subsAdd st.subs bk topic,
        mapSet st.device_topic_map topic d.id⟩).contains bk = true := by
    by_cases hc : st.clients.contains bk = true
    · show (if st.clients.contains bk then st.clients
        else st.clients ++ [bk]).contains bk = true
      rw [if_pos hc]; exact hc
    · show (if st.clients.contains bk then st.clients
        else st.clients ++ [bk]).contains bk = true
      rw [if_neg hc]; exact contains_append_singleton _ _
  have htop2 : (subsFor
      ⟨if st.clients.contains bk then st.clients else st.clients ++ [bk],
        subsAdd st.subs bk topic,
        mapSet st.device_topic_map topic d.id⟩ bk).contains topic = true := by
    rw [show subsFor
        (⟨if st.clients.contains bk then st.clients else st.clients ++ [bk],
          subsAdd st.subs bk topic,
          mapSet st.device_topic_map topic d.id⟩ : PoolState) bk
        = subsFor st bk ++ [topic] from subsFor_subs_update
          { st with clients := if st.clients.contains bk then st.clients
            else st.clients ++ [bk] } bk topic
          (mapSet st.device_topic_map topic d.id) hfresh]
    exact contains_append_singleton _ _
  rw [subscribe_device_existing_topic _ d bk topic hbk htopic hact hhost hpat
    hclient2 htop2]
  refine ⟨rfl, rfl, ?_⟩
  simp [mapSet_mapSet_same]


/-- C9: `subscribe_device` on a device whose `is_active` flag is false
returns immediately with zero subscribe calls and the pool state (all three
maps) unchanged, regardless of its broker/topic configuration and of
connect/subscribe outcomes. -/
theorem subscribe_inactive_noop (st : PoolState) (d : Device)
    (connectOk subOk : Bool) (h : d.is_active = false) :
    subscribe_device st d connectOk subOk = ⟨st, 0⟩ := by
  unfold subscribe_device
  rw [h]
  rfl

/-- C10: subscribing a second active device configured with the same broker
and the same topic pattern finds the topic already subscribed, issues no new
subscribe call, reassigns the topic→deviceId entry to the second device's
id, and exact-map resolution for that topic then yields the second (most
recently subscribed) device. -/
theorem resubscribe_same_topic_reassigns (st : PoolState) (d1 d2 : Device)
    (bk topic : String)
    (hbk : bk = brokerKey (d1.mqtt_broker_host.getD "") (portOr1883 d1.mqtt_broker_port))
    (htopic : topic = d1.mqtt_topic_pattern.getD "")
    (hhosteq : d2.mqtt_broker_host = d1.mqtt_broker_host)
    (hporteq : d2.mqtt_broker_port = d1.mqtt_broker_port)
    (hpateq : d2.mqtt_topic_pattern = d1.mqtt_topic_pattern)
    (h1act : d1.is_active = true) (h2act : d2.is_active = true)
    (hhost : truthyStr d1.mqtt_broker_host = true)
    (hpat : truthyStr d1.mqtt_topic_pattern = true)
    (hid : d1.id ≠ d2.id) (hid2 : d2.id ≠ 0)
    (hfresh : (subsFor st bk).contains topic = false) :
    (subscribe_device (subscribe_device st d1 true true).state d2 true true).subscribeCalls
      = 0 ∧
    lookupA (subscribe_device (subscribe_device st d1 true true).state d2 true
      true).state.device_topic_map topic = some d2.id ∧
    resolveDevice (subscribe_device (subscribe_device st d1 true true).state d2 true
      true).state.device_topic_map [d1, d2] topic = some (d2, .exactMap) := by
  have hbk2 : bk = brokerKey (d2.mqtt_broker_host.getD "")
      (portOr1883 d2.mqtt_broker_port) := by rw [hhosteq, hporteq, hbk]
  have htopic2 : topic = d2.mqtt_topic_pattern.getD "" := by rw [hpateq, htopic]
  have hhost2 : truthyStr d2.mqtt_broker_host = true := by rw [hhosteq]; exact hhost
  have hpat2 : truthyStr d2.mqtt_topic_pattern = true := by rw [hpateq]; exact hpat
  rw [subscribe_device_fresh_state st d1 bk topic hbk htopic h1act hhost hpat hfresh]
  have hclient2 : (PoolState.clients
      ⟨if st.clients.contains bk then st.clients else st.clients ++ [bk],
        subsAdd st.subs bk topic,
        mapSet st.device_topic_map topic d1.id⟩).contains bk = true := by
    by_cases hc : st.clients.contains bk = true
    · show (if st.clients.contains bk then st.clients
        else st.clients ++ [bk]).contains bk = true
      rw [if_pos hc]; exact hc
    · show (if st.clients.contains bk then st.clients
        else st.clients ++ [bk]).contains bk = true
      rw [if_neg hc]; exact contains_append_singleton _ _
  have htop2 : (subsFor
      ⟨if st.clients.contains bk then st.clients else st.clients ++ [bk],
        subsAdd st.subs bk topic,
        mapSet st.device_topic_map topic d1.id⟩ bk).contains topic = true := by
    rw [show subsFor
        (⟨if st.clients.contains bk then st.clients else st.clients ++ [bk],
          subsAdd st.subs bk topic,
          mapSet st.device_topic_map topic d1.id⟩ : PoolState) bk
        = subsFor st bk ++ [topic] from subsFor_subs_update
          { st with clients := if st.clients.contains bk then st.clients
            else st.clients ++ [bk] } bk topic
          (mapSet st.device_topic_map topic d1.id) hfresh]
    exact contains_append_singleton _ _
  rw [subscribe_device_existing_topic _ d2 bk topic hbk2 htopic2 h2act hhost2 hpat2
    hclient2 htop2]
  refine ⟨rfl, ?_, ?_⟩
  · show lookupA (mapSet (mapSet st.device_topic_map topic d1.id) topic d2.id) topic
      = some d2.id
    exact lookupA_mapSet_self _ _ _
  · show resolveDevice (mapSet (mapSet st.device_topic_map topic d1.id) topic d2.id)
      [d1, d2] topic = some (d2, .exactMap)
    have hfilter : ([d1, d2].filter (fun d => d.id = d2.id && d.is_active)) = [d2] := by
      rw [List.filter_cons, List.filter_cons]
      rw [show (decide (d1.id = d2.id) && d1.is_active) = false by simp [hid]]
      rw [show (decide (d2.id = d2.id) && d2.is_active) = true by simp [h2act]]
      simp
    have hexact : exactMapResolve
        (mapSet (mapSet st.device_topic_map topic d1.id) topic d2.id) [d1, d2] topic
        = some d2 := by
      unfold exactMapResolve
      rw [lookupA_mapSet_self]
      show (if d2.id = 0 then none else findActiveById [d1, d2] d2.id) = some d2
      rw [if_neg hid2]
      unfold findActiveById
      rw [hfilter]
      rfl
    unfold resolveDevice
    rw [hexact]


/-- C1 counterexample: with active device `devB` (hardware address `101`,
unrelated pattern `OTHER/topic`) enumerated before active device `devA`
(pattern `EM/101`), the message on topic `EM/101` resolves to `devB` by
hardware-address suffix match — not to `devA` by exact pattern match — so
resolution does depend on the order in which active devices are enumerated,
contrary to the claim. -/
theorem suffix_beats_exact_pattern_when_enumerated_first :
    devA.mqtt_topic_pattern = some "EM/101" ∧
    strEndsWith "EM/101" devB.hardware_address = true ∧
    devA.is_active = true ∧ devB.is_active = true ∧
    resolveDevice [] [devB, devA] "EM/101" = some (devB, .suffix) := by decide

/-- C1 amended: the pattern loop tries exact pattern, wildcard, then suffix
per device, in device enumeration order, with the first match winning; the
device with the exact pattern match therefore wins whenever it is enumerated
before any other matching candidate — in particular whenever it is first —
provided the exact-map stage found nothing. -/
theorem exact_pattern_wins_when_enumerated_first (m : List (String × ℕ))
    (A : Device) (rest : List Device) (topic : String)
    (hmap : exactMapResolve m (A :: rest) topic = none)
    (hact : A.is_active = true)
    (hpat : A.mqtt_topic_pattern = some topic)
    (hne : topic ≠ "") :
    resolveDevice m (A :: rest) topic = some (A, .exactPattern) := by
  have hfilter : (A :: rest).filter
      (fun d => d.is_active && truthyStr d.mqtt_topic_pattern)
      = A :: rest.filter (fun d => d.is_active && truthyStr d.mqtt_topic_pattern) := by
    rw [List.filter_cons]
    rw [show (A.is_active && truthyStr A.mqtt_topic_pattern) = true by
      rw [hact, hpat]
      simp [truthyStr, hne]]
    rfl
  have hmatch : deviceMatch topic A = some .exactPattern := by
    unfold deviceMatch
    rw [hpat]
    show (if topic = topic then some MatchKind.exactPattern else _) = _
    rw [if_pos rfl]
  have hpr : patternResolve (A :: rest) topic = some (A, .exactPattern) := by
    unfold patternResolve
    rw [hfilter, List.findSome?_cons, hmatch]
    rfl
  unfold resolveDevice
  rw [hmap, hpr]

/-- C6: when neither the exact-map stage nor the pattern loop (exact,
wildcard, suffix) matches an inbound topic: if exactly one active device
exists it is returned as the low-confidence single-device fallback; if two
or more active devices exist, resolution fails, the handler completes with
the diagnostic listing every active device with its id, name, hardware
address and configured pattern, and zero telemetry records are created. -/
theorem unmatched_topic_fallback (m : List (String × ℕ)) (devices : List Device)
    (topic : String)
    (h1 : exactMapResolve m devices topic = none)
    (h2 : patternResolve devices topic = none) :
    (∀ d : Device, devices.filter (fun d => d.is_active) = [d] →
        resolveDevice m devices topic = some (d, .singleFallback)) ∧
    (2 ≤ (devices.filter (fun d => d.is_active)).length →
      resolveDevice m devices topic = none ∧
      ∀ (db : Db) (payload : PayloadParse) (e1 e2 : Option String),
        db.devices = devices →
        handle_message ⟨none, e1, e2⟩ m db topic payload =
          .completed (.noDevice ((devices.filter (fun d => d.is_active)).map diagEntry))
        ∧ telemetryRecords (handle_message ⟨none, e1, e2⟩ m db topic payload) = 0) := by
  have hres : resolveDevice m devices topic =
      (match devices.filter (fun d => d.is_active) with
       | [d] => some (d, .singleFallback)
       | _ => none) := by
    unfold resolveDevice
    rw [h1, h2]
  constructor
  · intro d hd
    rw [hres, hd]
  · intro hlen
    have hnone : resolveDevice m devices topic = none := by
      rw [hres]
      cases hfilter : devices.filter (fun d => d.is_active) with
      | nil => rfl
      | cons x xs =>
        cases xs with
        | nil =>
          rw [hfilter] at hlen
          simp at hlen
        | cons y ys => rfl
    refine ⟨hnone, ?_⟩
    intro db payload e1 e2 hdb
    have hbody : handleMessageBody ⟨none, e1, e2⟩ m db topic payload =
        .ok (.noDevice ((devices.filter (fun d => d.is_active)).map diagEntry)) := by
      unfold handleMessageBody
      rw [hdb, hnone]
    constructor
    · unfold handle_message
      rw [hbody]
    · unfold telemetryRecords handle_message
      rw [hbody]


/-- C8: for every injected fault (resolution, persistence, threshold
evaluation), every topic and every payload-parse outcome (including
undecodable bytes), the message handler's result is never a propagated
exception: the handler-boundary `except` converts every error to a log
entry and returns normally. -/
theorem handler_never_propagates (f : Faults) (m : List (String × ℕ)) (db : Db)
    (topic : String) (payload : PayloadParse) :
    isPropagated (handle_message f m db topic payload) = false := by
  unfold handle_message
  cases handleMessageBody f m db topic payload <;> rfl

/-- C7: the connect-acknowledgment deadline is the 10-second constant; when
no acknowledgment arrives the probe returns success=false with the distinct
status `"timeout"` and empty message/address/key lists, identically for
every caller-specified listen window; the serializer's listen window
defaults to 15 seconds and every accepted value is at most 60 (and is the
caller's value). -/
theorem probe_timeout_and_window_bounds :
    connectAckTimeoutSeconds = 10 ∧
    (∀ (captured : List ProbeMessage) (w : ℕ),
      test_mqtt_connection .noAck captured w =
        { success := false
          connection_status := "timeout"
          messages := []
          detected_hardware_addresses := []
          all_parameter_keys := []
          error := some "Connection timeout - broker did not respond within 10 seconds" }) ∧
    timeoutSecondsField none = .ok 15 ∧
    (∀ (t r : ℤ), timeoutSecondsField (some t) = .ok r → r ≤ 60 ∧ r = t) := by
  refine ⟨rfl, fun captured w => rfl, rfl, fun t r h => ?_⟩
  simp only [timeoutSecondsField] at h
  by_cases h5 : t < 5
  · rw [if_pos h5] at h
    cases h
  · rw [if_neg h5] at h
    by_cases h60 : t > 60
    · rw [if_pos h60] at h
      cases h
    · rw [if_neg h60] at h
      cases h
      omega


theorem send_alarm_email_ok (emailFails : Bool) :
    send_alarm_email emailFails = .ok () := by
  cases emailFails <;> rfl

theorem except_ok_bind {a b : Type} (x : a) (f : a → Except String b) :
    (Except.ok x >>= f) = f x := rfl

theorem except_pure_bind {a b : Type} (x : a) (f : a → Except String b) :
    ((pure x : Except String a) >>= f) = f x := rfl

theorem checkThresholdStepE_eq (emailFails : Bool) (dev : ℕ)
    (mappings : List (String × String)) (params : List (String × JsonVal))
    (th : Threshold) (st : List Alarm × List Alarm) :
    checkThresholdStepE emailFails dev mappings params th st
      = .ok (checkThresholdStep dev mappings params th st) := by
  unfold checkThresholdStepE checkThresholdStep
  cases hlook : lookupA params th.parameter_key with
  | none => simp only [hlook]
  | some raw =>
    cases hval : pyFloatOfVal raw with
    | none => simp only [hlook, hval]
    | some value =>
      simp only [hlook, hval, send_alarm_email_ok, except_ok_bind, except_pure_bind]
      cases th.min <;> cases th.max <;> dsimp only [] <;> (try split_ifs) <;> rfl

theorem foldlM_ok_of_ok {α σ : Type} (g : σ → α → σ) (F : σ → α → Except String σ)
    (h : ∀ s a, F s a = .ok (g s a)) (xs : List α) (s : σ) :
    xs.foldlM F s = .ok (xs.foldl g s) := by
  induction xs generalizing s with
  | nil => rfl
  | cons x rest ih =>
    rw [List.foldlM_cons, List.foldl_cons, h]
    show Except.bind (Except.ok (g s x)) _ = _
    rw [Except.bind]
    exact ih (g s x)

/-- C4: threshold evaluation with the notification calls kept in the
exception monad always returns `.ok` of the pure result, for every device,
threshold table, parameter map, alarm table and notification outcome: it
never raises, and a notification failure affects neither the persisted
alarms nor the returned created-alarm list (the right-hand side does not
mention `emailFails`). -/
theorem check_thresholds_never_raises (emailFails : Bool) (dev : ℕ)
    (thresholds : List Threshold) (mappings : List (String × String))
    (params : List (String × JsonVal)) (alarms : List Alarm) :
    checkThresholdsE emailFails dev thresholds mappings params alarms
      = .ok (check_thresholds_and_create_alarms dev thresholds mappings params alarms)
      := by
  unfold checkThresholdsE check_thresholds_and_create_alarms
  by_cases hp : params.isEmpty
  · rw [if_pos hp, if_pos hp]
  · rw [if_neg hp, if_neg hp]
    exact foldlM_ok_of_ok _ _ (fun st th => checkThresholdStepE_eq emailFails dev
      mappings params th st) _ _


theorem hasUnacknowledged_false_filter_nil {alarms : List Alarm} {dev : ℕ}
    {key : String} (h : hasUnacknowledged alarms dev key = false) :
    alarms.filter (fun a => a.device = dev && a.parameter_key = key
      && !a.acknowledged) = [] := by
  unfold hasUnacknowledged at h
  rw [List.filter_eq_nil_iff]
  intro a ha hp
  have htrue : alarms.any (fun a => a.device = dev && a.parameter_key = key
      && !a.acknowledged) = true := List.any_eq_true.mpr ⟨a, ha, hp⟩
  rw [h] at htrue
  cases htrue

theorem inv_insert {alarms : List Alarm} (h : unackInvariant alarms) (a : Alarm)
    (hfree : hasUnacknowledged alarms a.device a.parameter_key = false) :
    unackInvariant (alarms ++ [a]) := by
  intro dev key
  rw [List.filter_append, List.length_append]
  by_cases hmatch : (a.device = dev && a.parameter_key = key && !a.acknowledged)
    = true
  · have h1 : a.device = dev ∧ a.parameter_key = key := by
      rw [Bool.and_eq_true, Bool.and_eq_true] at hmatch
      exact ⟨of_decide_eq_true hmatch.1.1, of_decide_eq_true hmatch.1.2⟩
    obtain ⟨hd, hk⟩ := h1
    subst hd hk
    rw [hasUnacknowledged_false_filter_nil hfree]
    have hlast : ([a].filter (fun x => x.device = a.device
        && x.parameter_key = a.parameter_key && !x.acknowledged)).length ≤ 1 := by
      rw [List.filter_cons]
      split <;> simp
    simpa using hlast
  · rw [show ([a].filter (fun x => x.device = dev && x.parameter_key = key
        && !x.acknowledged)) = [] by
      rw [List.filter_cons, if_neg hmatch]
      rfl]
    simpa using h dev key

theorem hasU_false_of_cond {b : Bool} {alarms : List Alarm} {dev : ℕ}
    {key : String} (h : (b && !hasUnacknowledged alarms dev key) = true) :
    hasUnacknowledged alarms dev key = false := by
  rw [Bool.and_eq_true] at h
  have h2 := h.2
  rwa [Bool.not_eq_eq_eq_not, Bool.not_true] at h2

theorem checkThresholdStep_preserves (dev : ℕ) (mappings : List (String × String))
    (params : List (String × JsonVal)) (th : Threshold)
    (st : List Alarm × List Alarm) (h : unackInvariant st.1) :
    unackInvariant (checkThresholdStep dev mappings params th st).1 := by
  unfold checkThresholdStep
  cases hlook : lookupA params th.parameter_key with
  | none => simpa only [hlook] using h
  | some raw =>
    cases hval : pyFloatOfVal raw with
    | none => simpa only [hlook, hval] using h
    | some value =>
      simp only [hlook, hval]
      cases th.min with
      | none =>
        cases th.max with
        | none => exact h
        | some hi =>
          dsimp only []
          split_ifs with h1
          · exact inv_insert h _ (hasU_false_of_cond h1)
          · exact h
      | some lo =>
        cases th.max with
        | none =>
          dsimp only []
          split_ifs with h1
          · exact inv_insert h _ (hasU_false_of_cond h1)
          · exact h
        | some hi =>
          dsimp only []
          split_ifs with h1 h2 h3
          · exact inv_insert (inv_insert h _ (hasU_false_of_cond h1)) _
              (hasU_false_of_cond h2)
          · exact inv_insert h _ (hasU_false_of_cond h1)
          · exact inv_insert h _ (hasU_false_of_cond h3)
          · exact h

theorem foldl_steps_preserve (dev : ℕ) (mappings : List (String × String))
    (params : List (String × JsonVal)) (ths : List Threshold) :
    ∀ st : List Alarm × List Alarm, unackInvariant st.1 →
    unackInvariant ((ths.foldl
      (fun st th => checkThresholdStep dev mappings params th st) st).1) := by
  induction ths with
  | nil => exact fun st h => h
  | cons th rest ih =>
    intro st h
    rw [List.foldl_cons]
    exact ih _ (checkThresholdStep_preserves dev mappings params th st h)

theorem check_thresholds_preserves_inv (dev : ℕ) (thresholds : List Threshold)
    (mappings : List (String × String)) (params : List (String × JsonVal))
    (alarms : List Alarm) (h : unackInvariant alarms) :
    unackInvariant
      (check_thresholds_and_create_alarms dev thresholds mappings params alarms).1
      := by
  unfold check_thresholds_and_create_alarms
  by_cases hp : params.isEmpty
  · rw [if_pos hp]
    exact h
  · rw [if_neg hp]
    exact foldl_steps_preserve dev mappings params _ (alarms, []) h

/-- C2 counterexample: a JSON boolean is neither a JSON number nor a numeric
string, yet normalization keeps it unchanged (Python's `isinstance(True,
int)` lets it through the numeric check), so `{"v": true}` yields a
non-empty parameter map instead of being dropped. -/
theorem bool_payload_value_survives_normalization :
    normalizeParams [("v", JsonVal.bool true)] = [("v", JsonVal.bool true)] ∧
    normalizeParams [("v", JsonVal.bool true)] ≠ [] := by
  refine ⟨rfl, ?_⟩
  intro hcontra
  rw [show normalizeParams [("v", JsonVal.bool true)]
    = [("v", JsonVal.bool true)] from rfl] at hcontra
  cases hcontra

/-- C2 amended: normalization keeps JSON numbers unchanged, keeps JSON
booleans unchanged, keeps a string value exactly when it matches the spec's
numeric pattern (digits, at most one leading minus, at most one decimal
point) — `"230.5"` becomes `230.5` and `"abc"` is dropped — drops
null/array/object values, and a message whose decoded object normalizes to
zero parameters is dropped with zero telemetry records created. -/
theorem normalization_classification :
    (∀ q : ℚ, normalizeValue (.num q) = some (.num q)) ∧
    (∀ b : Bool, normalizeValue (.bool b) = some (.bool b)) ∧
    (∀ s : String, (normalizeValue (.str s)).isSome = specNumericStr s) ∧
    normalizeValue (.str "230.5") = some (.num (230.5 : ℚ)) ∧
    normalizeValue (.str "abc") = none ∧
    normalizeValue .null = none ∧
    (∀ xs, normalizeValue (.arr xs) = none) ∧
    (∀ ms, normalizeValue (.obj ms) = none) ∧
    (∀ (db : Db) (m : List (String × ℕ)) (topic : String)
        (members : List (String × JsonVal)) (d : Device) (k : MatchKind)
        (e2 e3 : Option String),
      resolveDevice m db.devices topic = some (d, k) →
      normalizeParams members = [] →
      handle_message ⟨none, e2, e3⟩ m db topic (.jsonOf (.obj members))
        = .completed .noNumericParams ∧
      telemetryRecords (handle_message ⟨none, e2, e3⟩ m db topic
        (.jsonOf (.obj members))) = 0) := by
  refine ⟨fun q => rfl, fun b => rfl, ?_, ?_, rfl, rfl, fun xs => rfl, fun ms => rfl,
    ?_⟩
  · intro s
    have hiff : (normalizeValue (.str s)).isSome
        = (numericStringCheck s && (pyFloat? s).isSome) := by
      simp only [normalizeValue]
      by_cases hc : numericStringCheck s = true
      · rw [if_pos hc, hc, Bool.true_and]
        cases pyFloat? s <;> rfl
      · rw [if_neg hc, Bool.eq_false_iff.mpr hc, Bool.false_and]
        rfl
    rw [hiff, numeric_gate_eq_spec_pattern]
  · have h1 : pyFloat? "230.5" = some ((230 : ℚ) + 5 / 10 ^ 1) := rfl
    show (if numericStringCheck "230.5" then (pyFloat? "230.5").map JsonVal.num
      else none) = some (.num (230.5 : ℚ))
    rw [if_pos (by decide), h1]
    show some (JsonVal.num ((230 : ℚ) + 5 / 10 ^ 1)) = some (.num (230.5 : ℚ))
    rw [Option.some.injEq, JsonVal.num.injEq]
    norm_num
  · intro db m topic members d k e2 e3 hres hnorm
    have hbody : handleMessageBody ⟨none, e2, e3⟩ m db topic
        (.jsonOf (.obj members)) = .ok .noNumericParams := by
      unfold handleMessageBody
      simp only [hres, hnorm, List.isEmpty_nil, if_true]
    constructor
    · unfold handle_message
      rw [hbody]
    · unfold telemetryRecords handle_message
      rw [hbody]

/-- Witness for the C1 amended theorem at `devA` enumerated first. -/
theorem exact_pattern_wins_when_enumerated_first_witness :
    resolveDevice [] [devA, devB] "EM/101" = some (devA, .exactPattern) :=
  exact_pattern_wins_when_enumerated_first [] devA [devB] "EM/101" rfl rfl rfl
    (by decide)

/-- Witness for the C2 amended theorem: a payload with only a non-numeric
string normalizes to nothing and the message is dropped. -/
theorem normalization_classification_witness :
    handle_message ⟨none, none, none⟩ [] ⟨[devA], [], [], []⟩ "EM/101"
      (.jsonOf (.obj [("x", JsonVal.str "abc")])) = .completed .noNumericParams ∧
    telemetryRecords (handle_message ⟨none, none, none⟩ [] ⟨[devA], [], [], []⟩
      "EM/101" (.jsonOf (.obj [("x", JsonVal.str "abc")]))) = 0 :=
  normalization_classification.2.2.2.2.2.2.2.2 ⟨[devA], [], [], []⟩ [] "EM/101"
    [("x", JsonVal.str "abc")] devA .exactPattern none none (by decide) rfl

/-- C3: every threshold-evaluation pass preserves the
at-most-one-unacknowledged-alarm-per-(device, parameter_key) invariant
(regardless of breach type), and with min=200 configured on (device 1, `v`)
and no existing unacknowledged alarm, a reading of 180 creates exactly one
min-type alarm with value 180 and threshold 200, while a second sub-200
reading before acknowledgment creates zero additional alarms. -/
theorem unack_alarm_dedup :
    (∀ (dev : ℕ) (thresholds : List Threshold) (mappings : List (String × String))
        (params : List (String × JsonVal)) (alarms : List Alarm),
      unackInvariant alarms →
      unackInvariant
        (check_thresholds_and_create_alarms dev thresholds mappings params
          alarms).1) ∧
    check_thresholds_and_create_alarms 1 [thVmin] [] [("v", JsonVal.num 180)] []
      = ([alarmVmin], [alarmVmin]) ∧
    check_thresholds_and_create_alarms 1 [thVmin] [] [("v", JsonVal.num 180)]
      [alarmVmin] = ([alarmVmin], []) := by
  refine ⟨?_, by decide, by decide⟩
  intro dev thresholds mappings params alarms h
  exact check_thresholds_preserves_inv dev thresholds mappings params alarms h

/-- Witness for C3: starting from an empty alarm table, the table after the
fixture pass still satisfies the invariant. -/
theorem unack_alarm_dedup_witness :
    unackInvariant ((check_thresholds_and_create_alarms 1 [thVmin] []
      [("v", JsonVal.num 180)] []).1) :=
  unack_alarm_dedup.1 1 [thVmin] [] [("v", JsonVal.num 180)] []
    (fun dev key => by simp)

/-- Witness for C5 at `devD` from the empty pool. -/
theorem subscribe_device_idempotent_witness :
    (subscribe_device ⟨[], [], []⟩ devD true true).subscribeCalls = 1 ∧
    (subscribe_device (subscribe_device ⟨[], [], []⟩ devD true true).state devD
      true true).subscribeCalls = 0 ∧
    (subscribe_device (subscribe_device ⟨[], [], []⟩ devD true true).state devD
      true true).state = (subscribe_device ⟨[], [], []⟩ devD true true).state :=
  subscribe_device_idempotent ⟨[], [], []⟩ devD "mqtt.example.com:1883" "EM/46521"
    (by decide) rfl rfl (by decide) (by decide) rfl

/-- Witness for C6: one-active-device fallback on `[devInactive, devA]`, and
the two-active-device drop with diagnostic on `[devB, devA]`. -/
theorem unmatched_topic_fallback_witness :
    resolveDevice [] [devInactive, devA] "ZZZ" = some (devA, .singleFallback) ∧
    resolveDevice [] [devB, devA] "ZZZ" = none ∧
    handle_message ⟨none, none, none⟩ [] ⟨[devB, devA], [], [], []⟩ "ZZZ"
      (.jsonOf .null) = .completed (.noDevice
        (([devB, devA].filter (fun d => d.is_active)).map diagEntry)) ∧
    telemetryRecords (handle_message ⟨none, none, none⟩ []
      ⟨[devB, devA], [], [], []⟩ "ZZZ" (.jsonOf .null)) = 0 := by
  have H2 := (unmatched_topic_fallback [] [devB, devA] "ZZZ" (by decide)
    (by decide)).2 (by decide)
  refine ⟨(unmatched_topic_fallback [] [devInactive, devA] "ZZZ" (by decide)
    (by decide)).1 devA (by decide), H2.1, ?_, ?_⟩
  · exact (H2.2 ⟨[devB, devA], [], [], []⟩ (.jsonOf .null) none none rfl).1
  · exact (H2.2 ⟨[devB, devA], [], [], []⟩ (.jsonOf .null) none none rfl).2

/-- Witness for C7: the serializer accepts the maximal window of 60. -/
theorem probe_timeout_and_window_bounds_witness :
    (60 : ℤ) ≤ 60 ∧ (60 : ℤ) = 60 :=
  probe_timeout_and_window_bounds.2.2.2 60 60 rfl

/-- Witness for C9 at the inactive fixture device. -/
theorem subscribe_inactive_noop_witness :
    subscribe_device ⟨[], [], []⟩ devInactive true true = ⟨⟨[], [], []⟩, 0⟩ :=
  subscribe_inactive_noop ⟨[], [], []⟩ devInactive true true rfl

/-- Witness for C10 at `devD` then `devD2` from the empty pool. -/
theorem resubscribe_same_topic_reassigns_witness :
    (subscribe_device (subscribe_device ⟨[], [], []⟩ devD true true).state devD2
      true true).subscribeCalls = 0 ∧
    lookupA (subscribe_device (subscribe_device ⟨[], [], []⟩ devD true true).state
      devD2 true true).state.device_topic_map "EM/46521" = some devD2.id ∧
    resolveDevice (subscribe_device (subscribe_device ⟨[], [], []⟩ devD true
      true).state devD2 true true).state.device_topic_map [devD, devD2] "EM/46521"
      = some (devD2, .exactMap) :=
  resubscribe_same_topic_reassigns ⟨[], [], []⟩ devD devD2 "mqtt.example.com:1883"
    "EM/46521" (by decide) rfl rfl rfl rfl rfl rfl (by decide) (by decide)
    (by decide) (by decide) (by decide)

end EnergyMonitor
